import Mathlib

/-!
Verification of behavioural claims about the Miro backend sources.

Shallow embedding: each Python function that a claim depends on is
translated into an executable Lean definition, and the claims are proved
as theorems about those definitions.

Files embedded here:
  * src/tv/lib/dl_daemon/download.py  (downloader retry / resume / disk-space
    admission / duplicate-torrent logic)
  * src/tv/lib/database.py            (BulkSQLManager.commit, AttributeUpdateTracker)
  * src/tv/lib/storedatabase.py       (LiveStorage.update_obj)
  * src/tv/lib/moviedata.py           (MovieDataUpdater._should_process_item / request_update)
  * src/tv/lib/messagehandler.py      (ViewTracker event buffering and flushing)
  * src/tv/lib/commandline.py         (parse_command_line_args, add_torrent)
-/

namespace Miro

/-! ## Downloader model (src/tv/lib/dl_daemon/download.py) -/

/-- `RETRY_TIMES` from download.py: retry times in seconds.
60 seconds, 5 minutes, 10 minutes, 30 minutes, 1 hour, 2 hours,
6 hours, 24 hours. -/
def RETRY_TIMES : List Nat :=
  [60, 5 * 60, 10 * 60, 30 * 60, 60 * 60, 2 * 60 * 60, 6 * 60 * 60, 24 * 60 * 60]

/-- Python list indexing semantics (supports negative indices counting
from the end, returns 0 as a stand-in for the out-of-range IndexError,
which never fires in the embedded code paths). -/
def pyIndex (l : List Nat) (i : Int) : Nat :=
  if 0 ≤ i then l.getD i.toNat 0
  else l.getD (l.length - (-i).toNat) 0

/-- State of a `BGDownloader` (the fields touched by the error-handling
and retry code; `file` models the partially-downloaded file on disk for
an `HTTPDownloader`: `some n` means a file of `n` bytes exists at
`self.filename`, `none` means no file exists). -/
structure DlState where
  state : String
  currentSize : Int
  totalSize : Int
  retryCount : Int
  retryTime : Option Int
  reasonFailed : String
  shortReasonFailed : String
  startTime : Int
  endTime : Int
  rate : Int
  file : Option Nat
  deriving Repr, DecidableEq

/-- A downloader as freshly constructed by `BGDownloader.__init__`:
state "downloading", currentSize 0, totalSize -1, retryTime None,
retryCount -1.  (`file0` is whatever partial file exists on disk.) -/
def freshDownloader (file0 : Option Nat) : DlState :=
  { state := "downloading"
    currentSize := 0
    totalSize := -1
    retryCount := -1
    retryTime := none
    reasonFailed := "No Error"
    shortReasonFailed := "No Error"
    startTime := 0
    endTime := 0
    rate := 0
    file := file0 }

/-- `BGDownloader.handle_temporary_error`: enters the "offline" state,
bumps `retryCount` (capping it at `len(RETRY_TIMES) - 1`), schedules a
retry timer after `RETRY_TIMES[retryCount]` seconds and records the
wall-clock time of the next attempt in `retryTime`.  Returns the updated
state together with the delay passed to `eventloop.add_timeout`. -/
def handleTemporaryError (now : Int) (short reason : String) (s : DlState) :
    DlState × Nat :=
  let rc0 := s.retryCount + 1
  let rc := if rc0 ≥ (RETRY_TIMES.length : Int) then (RETRY_TIMES.length : Int) - 1 else rc0
  let delay := pyIndex RETRY_TIMES rc
  ({ s with
      state := "offline"
      endTime := 0
      startTime := 0
      rate := 0
      reasonFailed := reason
      shortReasonFailed := short
      retryCount := rc
      retryTime := some (now + (delay : Int)) },
   delay)

/-- `BGDownloader.handle_error`: enters the "failed" state and records
the failure reasons. -/
def handleError (short reason : String) (s : DlState) : DlState :=
  { s with
      state := "failed"
      reasonFailed := reason
      shortReasonFailed := short }

/-- `HTTPDownloader.handle_error`: calls `BGDownloader.handle_error`,
cancels the client request, removes the partially-downloaded file if it
exists (an `OSError` from the removal is swallowed, leaving the file in
place: `removeRaisesOSError` models that), and resets `currentSize` to 0
and `totalSize` to -1. -/
def handleErrorHTTP (removeRaisesOSError : Bool) (short reason : String)
    (s : DlState) : DlState :=
  let s1 := handleError short reason s
  let s2 := { s1 with
                file := match s1.file with
                  | none => none
                  | some n => if removeRaisesOSError then some n else none }
  { s2 with currentSize := 0, totalSize := -1 }

/-- The classification of errors in `BGDownloader.handle_network_error`:
the error passed to the errback. -/
inductive NetworkErr where
  | malformedURL
  | unknownHostError
  | authorizationFailed
  | proxyAuthorizationFailed
  | unexpectedStatusCode
  | otherNetworkError
  | notANetworkError
  deriving Repr, DecidableEq

/-- The `isinstance` test in `handle_network_error` selecting the
permanent error classes. -/
def NetworkErr.isPermanentClass : NetworkErr → Bool
  | .malformedURL => true
  | .unknownHostError => true
  | .authorizationFailed => true
  | .proxyAuthorizationFailed => true
  | .unexpectedStatusCode => true
  | _ => false

/-- The `isinstance(error, httpclient.NetworkError)` test. -/
def NetworkErr.isNetworkError : NetworkErr → Bool
  | .notANetworkError => false
  | _ => true

/-- `BGDownloader.handle_network_error` as run on an `HTTPDownloader`
(so `handle_error` is the HTTP override that also deletes the partial
file): permanent network errors go to `handle_error` and reset
`retryCount` to -1; all other network errors go to
`handle_temporary_error`; a non-NetworkError is logged and handed to
`handle_error` (without the retryCount reset).  Second component: the
retry delay scheduled, when a retry was scheduled. -/
def handleNetworkErrorHTTP (removeRaisesOSError : Bool) (now : Int)
    (e : NetworkErr) (short reason : String) (s : DlState) :
    DlState × Option Nat :=
  if e.isNetworkError then
    if e.isPermanentClass then
      let s1 := handleErrorHTTP removeRaisesOSError short reason s
      ({ s1 with retryCount := -1 }, none)
    else
      let p := handleTemporaryError now short reason s
      (p.1, some p.2)
  else
    (handleErrorHTTP removeRaisesOSError short reason s, none)

/-- `n` consecutive temporary failures applied to a state (folding
`handleTemporaryError`, keeping only the state). -/
def applyFailures (now : Int) (short reason : String) : Nat → DlState → DlState
  | 0, s => s
  | n + 1, s => (handleTemporaryError now short reason (applyFailures now short reason n s)).1

/-- The delay scheduled by the `n`-th consecutive failure (`n ≥ 1`)
starting from state `s`. -/
def nthFailureDelay (now : Int) (short reason : String) (n : Nat) (s : DlState) : Nat :=
  (handleTemporaryError now short reason (applyFailures now short reason (n - 1) s)).2

/-- `BGDownloader.accept_download_size`: disk-space admission control.
`preserve` is `config.get(prefs.PRESERVE_DISK_SPACE)`, `gbFree` is
`config.get(prefs.PRESERVE_X_GB_FREE)`, `availableBytes` is
`get_available_bytes_for_movies()`. -/
def acceptDownloadSize (preserve : Bool) (gbFree : Int) (availableBytes : Int)
    (size : Int) : Bool :=
  if preserve then
    let size1 := if size < 0 then 0 else size
    let preserved := gbFree * 1024 * 1024 * 1024
    let available := availableBytes - preserved
    decide (size1 ≤ available)
  else
    true

/-- `HTTPDownloader._resume_sanity_check`: given the size of the file on
disk (`none` = the file does not exist) and the recorded
`currentSize`, returns whether HTTP resume should still be attempted
together with the file state afterwards (a file larger than
`currentSize` is truncated to `currentSize`). -/
def resumeSanityCheck (file : Option Nat) (currentSize : Nat) :
    Bool × Option Nat :=
  match file with
  | none => (false, none)
  | some fileSize =>
    if fileSize > currentSize then
      (true, some currentSize)
    else if fileSize < currentSize then
      (false, some fileSize)
    else
      (true, some fileSize)

/-! ## BulkSQLManager.commit (src/tv/lib/database.py) -/

/-- Result of `BulkSQLManager.commit`: either the flush loop broke out
after some number of rounds with nothing left pending, or the
`AssertionError` at the end of the `for ... else` fired. -/
inductive CommitResult where
  | ok (rounds : Nat)
  | assertionFailure
  deriving Repr, DecidableEq

/-- One round of `BulkSQLManager.commit`'s loop body, abstracted over
the side effects of flushing: `step p` is the pending work
(`to_insert`/`to_remove` contents) enqueued while `_commit_sql` and
`_update_view_trackers` process the pending work `p` that was set
aside at the top of the round.  `commitAux step fuel p k` runs the
remaining `fuel` rounds of `for x in range(100)` on current pending
work `p`, with `k` rounds already executed. -/
def commitAux (step : List α → List α) : Nat → List α → Nat → CommitResult
  | 0, _, _ => .assertionFailure
  | fuel + 1, p, k =>
    let p1 := step p
    if p1.isEmpty then .ok (k + 1)
    else commitAux step fuel p1 (k + 1)

/-- `BulkSQLManager.commit`: up to 100 rounds of flushing, then the
circular-dependency `AssertionError`. -/
def commit (step : List α → List α) (pending : List α) : CommitResult :=
  commitAux step 100 pending 0

/-! ## Change tracking and minimal UPDATEs
(src/tv/lib/database.py `AttributeUpdateTracker`,
 src/tv/lib/storedatabase.py `LiveStorage.update_obj`)

An object's persisted fields are modelled as a valuation
`String → Int`; its schema as a list of named fields each flagged as a
`SchemaSimpleItem` or not; the persisted row as another valuation. -/

/-- One schema field of an object schema: its column name and whether
the schema item is a `SchemaSimpleItem` (only simple items participate
in the dirty-set restriction of `update_obj`). -/
structure FieldSpec where
  name : String
  simple : Bool
  deriving Repr, DecidableEq

/-- In-memory state of a DDBObject for the purposes of change tracking:
attribute valuation plus the `changed_attributes` set. -/
structure TrackedObj where
  attrs : String → Int
  changed : List String

/-- `AttributeUpdateTracker.__set__`: setting attribute `name` to `v`
adds `name` to `changed_attributes` exactly when the new value differs
from the current one, and stores the value. -/
def setAttr (o : TrackedObj) (name : String) (v : Int) : TrackedObj :=
  { attrs := fun n => if n = name then v else o.attrs n
    changed := if o.attrs name ≠ v then name :: o.changed else o.changed }

/-- The per-field test in `LiveStorage.update_obj` deciding whether a
column appears among the `SET` clauses: a field is skipped iff it is a
`SchemaSimpleItem` and its name is not in `changed_attributes`. -/
def includedInUpdate (changed : List String) (f : FieldSpec) : Bool :=
  !(f.simple && !(changed.contains f.name))

/-- `LiveStorage.update_obj`: executes
`UPDATE table SET c1=?, ... WHERE id=...` with one setter per
non-skipped schema field, and calls `reset_changed_attributes`.
Returns the persisted row after the update together with the object
(whose `changed_attributes` set has been cleared). -/
def update_obj (schemaFields : List FieldSpec) (o : TrackedObj)
    (row : String → Int) : (String → Int) × TrackedObj :=
  let setters := (schemaFields.filter (includedInUpdate o.changed)).map (·.name)
  (fun n => if setters.contains n then o.attrs n else row n,
   { o with changed := [] })

/-! ## Metadata coordinator (src/tv/lib/moviedata.py) -/

/-- The fields of a library item that `_should_process_item` and
`request_update` read.  `file_type` is `none` for Python `None`;
`duration` is `none` for an unknown duration. -/
structure MDItem where
  id : Nat
  has_drm : Bool
  file_type : Option String
  duration : Option Nat
  deriving Repr, DecidableEq

/-- `MovieDataUpdater._should_process_item`. -/
def shouldProcessItem (item : MDItem) : Bool :=
  if item.has_drm then true
  else
    (item.file_type = some "video" ||
     (item.file_type = some "audio" && item.duration = none) ||
     item.file_type = none)

/-- Outcome of `MovieDataUpdater.request_update` for one item. -/
inductive RequestUpdateResult where
  | earlyReturn
  | dispatched
  | skipped
  deriving Repr, DecidableEq

/-- `MovieDataUpdater.request_update` (the unit-test kludge branch is
omitted: it only exists when running under the test harness): returns
early when shutting down or the item id is already in flight; otherwise
dispatches the external extractor iff `_should_process_item` holds, and
marks the item skipped otherwise. -/
def requestUpdate (inShutdown : Bool) (inProgress : List Nat) (item : MDItem) :
    RequestUpdateResult :=
  if inShutdown then .earlyReturn
  else if inProgress.contains item.id then .earlyReturn
  else if shouldProcessItem item then .dispatched
  else .skipped

/-! ## Dispatcher-side ViewTracker (src/tv/lib/messagehandler.py)

The tracked database objects are identity-mapped mutable Python
objects: the values stored in the `added`/`changed` dicts are the very
same instances the database holds, so the info payload sent at flush
time always reflects the object's state at flush time.  We model this
by keeping the buffers as id collections and the objects' current field
values in a separate map `objState` (field values abstracted to one
`Nat`); `info_factory` is modelled as the projection
`id ↦ (id, objState id)`. -/

/-- Association-list update with dict semantics (`m[k] = v`): replace
the binding of `k` (Python dicts hold one binding per key) or append a
new one. -/
def alSetN : List (Nat × Nat) → Nat → Nat → List (Nat × Nat)
  | [], k, v => [(k, v)]
  | p :: rest, k, v =>
    if p.1 = k then (k, v) :: rest else p :: alSetN rest k v

/-- Association-list delete (`del m[k]`; deleting a missing key is a
no-op here, whereas Python raises KeyError — the embedded code never
deletes missing keys on the claim-relevant paths). -/
def alDelN (m : List (Nat × Nat)) (k : Nat) : List (Nat × Nat) :=
  m.filter (fun p => p.1 ≠ k)

/-- Association-list lookup. -/
def alGet (m : List (Nat × Nat)) (k : Nat) : Option Nat :=
  (m.find? (fun p => p.1 = k)).map (fun p => p.2)

/-- Association-list lookup with default. -/
def alGetD (m : List (Nat × Nat)) (k d : Nat) : Nat :=
  (alGet m k).getD d

/-- Set-like insert used for the `removed` set and the key set of a
dict. -/
def setInsert (s : List Nat) (x : Nat) : List Nat :=
  if s.contains x then s else x :: s

/-- State of `messagehandler.ViewTracker` (with
`tabs_being_reordered = False`, its value in all item/guide tracking):
`added` is the key set of the `added` dict, `addedOrder` the ids of the
objects in `added_order` in arrival order, `changed` the key set of the
`changed` dict, `removed` the `removed` set, `lastSentInfo` the
`_last_sent_info` cache (id → last flushed field value), and
`objState` the current field values of the underlying database
objects. -/
structure TrackerState where
  objState : List (Nat × Nat)
  added : List Nat
  addedOrder : List Nat
  changed : List Nat
  removed : List Nat
  lastSentInfo : List (Nat × Nat)
  deriving Repr, DecidableEq

/-- A tracker state just after `reset_changes` (e.g. right after a
flush): all four buffers empty. -/
def restState (os ls : List (Nat × Nat)) : TrackerState :=
  { objState := os
    added := []
    addedOrder := []
    changed := []
    removed := []
    lastSentInfo := ls }

/-- One flushed notification message (`make_changed_message`'s
`added`/`changed`/`removed` payloads; infos are `(id, fields)`
pairs). -/
structure Message where
  added : List (Nat × Nat)
  changed : List (Nat × Nat)
  removed : List Nat
  deriving Repr, DecidableEq

/-- `if message.added or message.changed or message.removed` — an
all-empty message is not sent. -/
def Message.isAllEmpty (m : Message) : Bool :=
  m.added.isEmpty && m.changed.isEmpty && m.removed.isEmpty

/-- A message carries a notification about id `i`. -/
def Message.mentions (m : Message) (i : Nat) : Prop :=
  i ∈ m.added.map Prod.fst ∨ i ∈ m.changed.map Prod.fst ∨ i ∈ m.removed

instance (m : Message) (i : Nat) : Decidable (m.mentions i) := by
  unfold Message.mentions; infer_instance

/-- `_make_added_list`: build one info per added object (in
`added_order` order), updating `_last_sent_info` as it goes. -/
def addedPass (os : List (Nat × Nat)) (ls : List (Nat × Nat)) :
    List Nat → List (Nat × Nat) × List (Nat × Nat)
  | [] => ([], ls)
  | i :: rest =>
    let info := (i, alGetD os i 0)
    let p := addedPass os (alSetN ls i info.2) rest
    (info :: p.1, p.2)

/-- `_make_changed_list`: build infos for changed objects, dropping any
whose info is identical to what `_last_sent_info` recorded, updating
the cache for the ones kept. -/
def changedPass (os : List (Nat × Nat)) (ls : List (Nat × Nat)) :
    List Nat → List (Nat × Nat) × List (Nat × Nat)
  | [] => ([], ls)
  | i :: rest =>
    let d := alGetD os i 0
    match alGet ls i with
    | some prev =>
      if prev = d then changedPass os ls rest
      else
        let p := changedPass os (alSetN ls i d) rest
        ((i, d) :: p.1, p.2)
    | none =>
      let p := changedPass os (alSetN ls i d) rest
      ((i, d) :: p.1, p.2)

/-- `ViewTracker.send_messages`: build the changed-message from the
buffers (`_get_added_objects` keeps `added_order` entries whose id is
still in the `added` dict; `_make_removed_list` lists the removed set
and drops its ids from `_last_sent_info`) and `reset_changes`.
Returns the message (sent to the frontend iff non-empty) and the reset
state. -/
def flush (s : TrackerState) : Message × TrackerState :=
  let addedIds := s.addedOrder.filter (fun i => s.added.contains i)
  let ap := addedPass s.objState s.lastSentInfo addedIds
  let cp := changedPass s.objState ap.2 s.changed
  let ls3 := s.removed.foldl alDelN cp.2
  ({ added := ap.1, changed := cp.1, removed := s.removed },
   { s with
       added := []
       addedOrder := []
       changed := []
       removed := []
       lastSentInfo := ls3 })

/-- A tracker event delivered between flushes: `added`/`changed` carry
the object's id together with its (new) field value, `removedId`
carries just the id (`on_object_removed` forwards to
`on_object_id_removed`). -/
inductive TEvent where
  | added (i d : Nat)
  | changed (i d : Nat)
  | removedId (i : Nat)
  deriving Repr, DecidableEq

/-- The object id an event concerns. -/
def TEvent.eventId : TEvent → Nat
  | .added i _ => i
  | .changed i _ => i
  | .removedId i => i

/-- `on_object_added` / `on_object_id_removed` / `on_object_changed`
(with `tabs_being_reordered = False`).  An `added` event whose id is
already buffered as removed first flushes (`send_messages`), exactly as
the Python does; the returned list holds the messages actually sent
to the frontend by the event. -/
def applyEvent (s : TrackerState) : TEvent → List Message × TrackerState
  | .added i d =>
    if s.removed.contains i then
      ((if (flush { s with objState := alSetN s.objState i d }).1.isAllEmpty then []
        else [(flush { s with objState := alSetN s.objState i d }).1]),
       { (flush { s with objState := alSetN s.objState i d }).2 with
           added :=
             setInsert (flush { s with objState := alSetN s.objState i d }).2.added i
           addedOrder :=
             (flush { s with objState := alSetN s.objState i d }).2.addedOrder ++ [i] })
    else
      ([], { s with
               objState := alSetN s.objState i d
               added := setInsert s.added i
               addedOrder := s.addedOrder ++ [i] })
  | .removedId i =>
    if s.added.contains i then
      ([], { s with added := s.added.filter (fun j => j ≠ i) })
    else if s.changed.contains i then
      ([], { s with
               changed := s.changed.filter (fun j => j ≠ i)
               removed := setInsert s.removed i })
    else
      ([], { s with removed := setInsert s.removed i })
  | .changed i d =>
    if s.added.contains i then
      -- self.added[obj.id] = obj : the dict's key set is unchanged
      ([], { s with objState := alSetN s.objState i d })
    else
      ([], { s with
               objState := alSetN s.objState i d
               changed := setInsert s.changed i })

/-- Apply a sequence of events, accumulating the messages sent. -/
def applyEvents (s : TrackerState) : List TEvent → List Message × TrackerState
  | [] => ([], s)
  | e :: rest =>
    let p := applyEvent s e
    let q := applyEvents p.2 rest
    (p.1 ++ q.1, q.2)

/-! ## Command-line ingestion (src/tv/lib/commandline.py) -/

/-- Rightmost index of `c` in `l`, or -1 when absent (Python
`str.rfind`). -/
def rfindChar (l : List Char) (c : Char) : Int :=
  match l.reverse.findIdx? (fun x => x = c) with
  | some j => (l.length : Int) - 1 - (j : Int)
  | none => -1

/-- The extension part of `os.path.splitext(p)` (posix separators): the
suffix from the last dot, provided that dot lies after the last path
separator and the basename is not made up entirely of leading dots. -/
def splitextExt (p : String) : String :=
  let l := p.data
  let sepI := rfindChar l '/'
  let dotI := rfindChar l '.'
  if sepI < dotI then
    let base := (l.drop (sepI + 1).toNat).take (dotI - sepI - 1).toNat
    if base.any (fun ch => ch ≠ '.') then String.mk (l.drop dotI.toNat) else ""
  else ""

/-- Result of `get_torrent_info_hash` on a local path: the parsed
info-hash, a `ValueError` (corrupt torrent data), or an
`IOError`/`OSError` (unreadable file). -/
inductive TorrentParse where
  | ok (infohash : String)
  | corrupt
  | ioError
  deriving Repr, DecidableEq

/-- What `add_torrent` observes about one item of the manual feed:
the info-hash of its downloader's status (`none` when the item has no
downloader or no recorded info-hash) and the downloader state. -/
structure CLFeedItem where
  infohash : Option String
  dlState : String
  deriving Repr, DecidableEq

/-- The action performed by `commandline.add_torrent`. -/
inductive TorrentAction where
  | resumedExisting
  | alreadyActive
  | startedNewDownload
  deriving Repr, DecidableEq

/-- `commandline.add_torrent(path, torrent_info_hash)`: scan the manual
feed for an item whose downloader has the same info-hash; if one is
found, call `download()` on it when it is paused or stopped (and
nothing otherwise); only when no item matches is a new item created in
the manual feed and downloaded. -/
def add_torrent (manualFeedItems : List CLFeedItem) (ih : String) : TorrentAction :=
  match manualFeedItems.find? (fun i => i.infohash = some ih) with
  | some i =>
    if i.dlState = "paused" ∨ i.dlState = "stopped" then .resumedExisting
    else .alreadyActive
  | none => .startedNewDownload

/-- The domain action `parse_command_line_args` routes one argument
to. -/
inductive ClassifyAction where
  | subscriptionMiro
  | subscriptionDemocracy
  | singleClickDownload
  | torrentCorruptDialog
  | torrentFileErrorDialog
  | torrent (a : TorrentAction)
  | addFeedFromFile
  | importOpml (showSummary : Bool)
  | addVideo
  | loggedNonexistent
  deriving Repr, DecidableEq

/-- Python `str.lower` (ASCII), on the character list (structural, so
concrete instances evaluate in the kernel). -/
def pyLower (s : String) : String :=
  String.mk (s.data.map Char.toLower)

/-- Python `str.startswith`, on the character lists (structural, so
concrete instances evaluate in the kernel). -/
def pyStartswith (p s : String) : Bool :=
  p.data.isPrefixOf s.data

/-- The per-argument body of `parse_command_line_args` (after the
initial pass has stripped any `file://` prefix), abstracted over the
filesystem (`fsExists`), `is_magnet_uri`, `get_torrent_info_hash`
(`parseTorrent`) and the manual feed's items. -/
def classifyArg (fsExists : String → Bool) (isMagnet : String → Bool)
    (parseTorrent : String → TorrentParse)
    (manualFeedItems : List CLFeedItem) (arg : String) : ClassifyAction :=
  if pyStartswith "miro:" arg then .subscriptionMiro
  else if pyStartswith "democracy:" arg then .subscriptionDemocracy
  else if (pyStartswith "http:" arg || pyStartswith "https:" arg ||
           pyStartswith "feed:" arg || pyStartswith "feeds:" arg ||
           isMagnet arg) then .singleClickDownload
  else if fsExists arg then
    let ext := pyLower (splitextExt arg)
    if ext = ".torrent" || ext = ".tor" then
      match parseTorrent arg with
      | .corrupt => .torrentCorruptDialog
      | .ioError => .torrentFileErrorDialog
      | .ok ih => .torrent (add_torrent manualFeedItems ih)
    else if ext = ".rss" || ext = ".rdf" || ext = ".atom" || ext = ".ato" then
      .addFeedFromFile
    else if ext = ".miro" || ext = ".democracy" || ext = ".dem" || ext = ".opml" then
      .importOpml false
    else .addVideo
  else .loggedNonexistent

/-! ## Duplicate-torrent detection (src/tv/lib/dl_daemon/download.py)

`TorrentSession` keys its per-torrent registry by the canonical integer
form of the info-hash (`info_hash_to_long` = `long(str(info_hash), 16)`,
i.e. parsing the hex string).  Magnet info-hashes of length 32 are first
run through `base64.b32decode` and `base64.b16encode`.  Bytes are
modelled as `Nat < 256`, Python byte strings as `List Nat`. -/

/-- Big-endian value of a byte string. -/
def bytesToNat (bs : List Nat) : Nat :=
  bs.foldl (fun acc b => acc * 256 + b) 0

/-- Big-endian byte string of length `len` representing `n`. -/
def natToBytes : Nat → Nat → List Nat
  | 0, _ => []
  | len + 1, n => natToBytes len (n / 256) ++ [n % 256]

/-- The base32 alphabet character for digit `d < 32` (A–Z then 2–7). -/
def b32CharOf (d : Nat) : Char :=
  if d < 26 then Char.ofNat (65 + d) else Char.ofNat (50 + (d - 26))

/-- The base32 digit of an alphabet character. -/
def b32ValOf (c : Char) : Option Nat :=
  if 'A' ≤ c && c ≤ 'Z' then some (c.toNat - 65)
  else if '2' ≤ c && c ≤ '7' then some (c.toNat - 50 + 26)
  else none

/-- Left-to-right accumulation of base-32 digits; `none` on a character
outside the alphabet (where Python's `b32decode` raises). -/
def b32decodeAux (acc : Nat) : List Char → Option Nat
  | [] => some acc
  | c :: rest =>
    match b32ValOf c with
    | some v => b32decodeAux (acc * 32 + v) rest
    | none => none

/-- The base-32 digit characters (big-endian, `len` of them) of `n`. -/
def b32Chars : Nat → Nat → List Char
  | 0, _ => []
  | len + 1, n => b32Chars len (n / 32) ++ [b32CharOf (n % 32)]

/-- `base64.b32decode` restricted to 32-character inputs (the only
shape `find_duplicate_torrent_from_magnet` feeds it: 32 characters =
160 bits = 20 bytes, no padding). -/
def b32decode32 (s : String) : Option (List Nat) :=
  if s.length = 32 then (b32decodeAux 0 s.data).map (natToBytes 20) else none

/-- `base64.b32encode` of a 20-byte string (32 characters, no
padding). -/
def b32encode (bs : List Nat) : String :=
  String.mk (b32Chars 32 (bytesToNat bs))

/-- Uppercase hex digit character of `d < 16`. -/
def hexUpperChar (d : Nat) : Char :=
  if d < 10 then Char.ofNat (48 + d) else Char.ofNat (65 + (d - 10))

/-- Hex digit value of a character (`long(_, 16)` accepts both
cases). -/
def hexValOf (c : Char) : Option Nat :=
  if '0' ≤ c && c ≤ '9' then some (c.toNat - 48)
  else if 'A' ≤ c && c ≤ 'F' then some (c.toNat - 65 + 10)
  else if 'a' ≤ c && c ≤ 'f' then some (c.toNat - 97 + 10)
  else none

/-- Left-to-right accumulation of hex digits; `none` on a non-hex
character (where Python's `long(_, 16)` raises). -/
def hexDecodeAux (acc : Nat) : List Char → Option Nat
  | [] => some acc
  | c :: rest =>
    match hexValOf c with
    | some v => hexDecodeAux (acc * 16 + v) rest
    | none => none

/-- `base64.b16encode`: two uppercase hex characters per byte. -/
def b16encode (bs : List Nat) : String :=
  String.mk ((bs.map (fun b => [hexUpperChar (b / 16), hexUpperChar (b % 16)])).flatten)

/-- `info_hash_to_long`: `long(str(info_hash), 16)` — parse the hex
string into the canonical integer form used as the registry key
(`none` where Python raises on an empty/non-hex string). -/
def info_hash_to_long (s : String) : Option Nat :=
  if s.data.isEmpty then none else hexDecodeAux 0 s.data

/-- Registry lookup `self.info_hash_to_downloader.get(key)`: the
registry maps canonical-integer info-hashes to the dlids of the
registered downloaders. -/
def registryGet (registry : List (Nat × Nat)) (key : Nat) : Option Nat :=
  (registry.find? (fun p => p.1 = key)).map (fun p => p.2)

/-- `TorrentSession.find_duplicate_torrent_from_magnet`: outer `none`
models an exception escaping (invalid base32 in a 32-character hash, or
a non-hex hash string); `some r` is a normal return of `r`. -/
def find_duplicate_torrent_from_magnet (registry : List (Nat × Nat))
    (infoHash : String) : Option (Option Nat) :=
  if infoHash.data.isEmpty then some none
  else
    let hexStr? : Option String :=
      if infoHash.length = 32 then (b32decode32 infoHash).map b16encode
      else some infoHash
    match hexStr? with
    | none => none
    | some hx => (info_hash_to_long hx).map (registryGet registry)

/-- `TorrentSession.find_duplicate_torrent` for direct `.torrent`
metadata: `str(torrent_info.info_hash())` is the hex rendering of the
engine's big-number info-hash. -/
def find_duplicate_torrent (registry : List (Nat × Nat))
    (infoHashHex : String) : Option (Option Nat) :=
  (info_hash_to_long infoHashHex).map (registryGet registry)

/-- Outcome of the duplicate check at the top of
`BTDownloader._start_torrent`. -/
inductive StartTorrentResult where
  | duplicateReported (origDlid myDlid : Nat)
  | proceeded
  deriving Repr, DecidableEq

/-- The duplicate-handling prefix of `BTDownloader._start_torrent` for
a magnet link: when a duplicate is found, a
`command.DuplicateTorrent(duplicate.dlid, self.dlid)` is sent and the
method returns without starting a torrent (the session registry is
untouched); otherwise the start proceeds. -/
def startTorrentFromMagnet (registry : List (Nat × Nat)) (dlid : Nat)
    (magnetInfoHash : String) : Option StartTorrentResult :=
  (find_duplicate_torrent_from_magnet registry magnetInfoHash).map (fun dup =>
    match dup with
    | some orig => .duplicateReported orig dlid
    | none => .proceeded)

/-- The duplicate-handling prefix of `BTDownloader._start_torrent` for
direct `.torrent` metainfo. -/
def startTorrentFromMetainfo (registry : List (Nat × Nat)) (dlid : Nat)
    (infoHashHex : String) : Option StartTorrentResult :=
  (find_duplicate_torrent registry infoHashHex).map (fun dup =>
    match dup with
    | some orig => .duplicateReported orig dlid
    | none => .proceeded)

/-! ## Theorems -/

/-- `retryCount` after `k` consecutive temporary failures of a fresh
downloader: `min k 8 - 1`. -/
lemma applyFailures_retryCount (now : Int) (short reason : String)
    (f : Option Nat) (k : Nat) :
    (applyFailures now short reason k (freshDownloader f)).retryCount
      = min (k : Int) 8 - 1 := by
  induction k with
  | zero => simp [applyFailures, freshDownloader]
  | succ k ih =>
    simp only [applyFailures, handleTemporaryError, RETRY_TIMES, List.length]
    simp only [ih]
    split <;> push_cast <;> omega

/-- `handleTemporaryError` puts the downloader offline and records the
retry time as now plus the scheduled delay. -/
lemma handleTemporaryError_offline (now : Int) (short reason : String)
    (s : DlState) :
    (handleTemporaryError now short reason s).1.state = "offline" ∧
    (handleTemporaryError now short reason s).1.retryTime
      = some (now + ((handleTemporaryError now short reason s).2 : Int)) := by
  simp [handleTemporaryError]

/-- `pyIndex` at a nonnegative (cast) index is plain list indexing. -/
lemma pyIndex_ofNat (l : List Nat) (k : Nat) : pyIndex l (k : Int) = l.getD k 0 := by
  simp [pyIndex]

/-- The delay scheduled by `handleTemporaryError` as a function of the
incoming `retryCount`. -/
lemma handleTemporaryError_delay (now : Int) (short reason : String) (s : DlState) :
    (handleTemporaryError now short reason s).2
      = pyIndex RETRY_TIMES
          (if s.retryCount + 1 ≥ 8 then 7 else s.retryCount + 1) := by
  have h : ((RETRY_TIMES.length : Int)) = 8 := by norm_num [RETRY_TIMES]
  simp only [handleTemporaryError, h]
  norm_num

/-- The delay scheduled by the `(m+1)`-st consecutive failure of a
fresh downloader: entry `min m 7` of the retry table. -/
lemma nthFailureDelay_fresh (now : Int) (short reason : String)
    (f : Option Nat) (m : Nat) :
    nthFailureDelay now short reason (m + 1) (freshDownloader f)
      = RETRY_TIMES.getD (min m 7) 0 := by
  show (handleTemporaryError now short reason
      (applyFailures now short reason ((m + 1) - 1) (freshDownloader f))).2 = _
  rw [Nat.add_sub_cancel, handleTemporaryError_delay, applyFailures_retryCount]
  rcases Nat.lt_or_ge m 8 with hm | hm
  · rw [if_neg (by omega)]
    have h2 : min (m : Int) 8 - 1 + 1 = (m : Int) := by omega
    rw [h2, pyIndex_ofNat]
    have h3 : min m 7 = m := by omega
    rw [h3]
  · rw [if_pos (by omega)]
    have h3 : min m 7 = 7 := by omega
    rw [h3]
    decide

/-- Claim C3: for every downloader and every number `n ≥ 1` of
consecutive transient failures, the `n`-th failure enters the offline
state and schedules the retry after exactly the `n`-th entry of the
fixed table (60, 300, 600, 1800, 3600, 7200, 21600, 86400 seconds),
capped at 86400 seconds once `n` exceeds the table length, recording
the wall-clock time of the next attempt in `retryTime`. -/
theorem retry_backoff_nth_failure (now : Int) (short reason : String)
    (f : Option Nat) (n : Nat) (hn : 1 ≤ n) :
    (applyFailures now short reason n (freshDownloader f)).state = "offline" ∧
    (n ≤ RETRY_TIMES.length →
      nthFailureDelay now short reason n (freshDownloader f)
        = RETRY_TIMES.getD (n - 1) 0) ∧
    (RETRY_TIMES.length < n →
      nthFailureDelay now short reason n (freshDownloader f) = 86400) ∧
    nthFailureDelay now short reason n (freshDownloader f) ≤ 86400 ∧
    (applyFailures now short reason n (freshDownloader f)).retryTime
      = some (now + (nthFailureDelay now short reason n (freshDownloader f) : Int)) := by
  obtain ⟨m, rfl⟩ : ∃ m, n = m + 1 := ⟨n - 1, by omega⟩
  have hdelay := nthFailureDelay_fresh now short reason f m
  have hlen : RETRY_TIMES.length = 8 := by decide
  refine ⟨?_, ?_, ?_, ?_, ?_⟩
  · exact (handleTemporaryError_offline now short reason
      (applyFailures now short reason m (freshDownloader f))).1
  · intro hle
    rw [hdelay, Nat.add_sub_cancel]
    have h3 : min m 7 = m := by omega
    rw [h3]
  · intro hgt
    rw [hdelay]
    have h3 : min m 7 = 7 := by omega
    rw [h3]
    decide
  · rw [hdelay]
    have h3 : min m 7 ≤ 7 := by omega
    interval_cases h : min m 7 <;> decide
  · have := (handleTemporaryError_offline now short reason
        (applyFailures now short reason m (freshDownloader f))).2
    exact this.trans (by rfl)

/-- Witness for C3: the sixth failure of a fresh downloader is
scheduled after 7200 seconds, the ninth after 86400. -/
theorem retry_backoff_nth_failure_witness :
    (1 ≤ 6 ∧
      (applyFailures 1000 "s" "r" 6 (freshDownloader none)).state = "offline") ∧
    nthFailureDelay 1000 "s" "r" 6 (freshDownloader none) = 7200 ∧
    nthFailureDelay 1000 "s" "r" 9 (freshDownloader none) = 86400 := by
  refine ⟨⟨by decide, (retry_backoff_nth_failure 1000 "s" "r" none 6 (by decide)).1⟩, ?_, ?_⟩
  · have h := (retry_backoff_nth_failure 1000 "s" "r" none 6 (by decide)).2.1
    simp only [RETRY_TIMES, List.length] at h
    rw [h (by omega)]
    rfl
  · have h := (retry_backoff_nth_failure 1000 "s" "r" none 9 (by decide)).2.2.1
    simp only [RETRY_TIMES, List.length] at h
    exact h (by omega)

/-- Claim C9: an HTTP download failing permanently deletes the partial
file, resets `currentSize` to 0 and `totalSize` to -1, and — for
permanent network errors — resets the retry counter to -1, so that a
later transient failure restarts the backoff schedule at its first
entry (60 seconds). -/
theorem http_permanent_error_resets (now now2 : Int)
    (short reason short2 reason2 : String) (s : DlState) (e : NetworkErr)
    (hperm : e.isPermanentClass = true) :
    (handleNetworkErrorHTTP false now e short reason s).1.state = "failed" ∧
    (handleNetworkErrorHTTP false now e short reason s).1.file = none ∧
    (handleNetworkErrorHTTP false now e short reason s).1.currentSize = 0 ∧
    (handleNetworkErrorHTTP false now e short reason s).1.totalSize = -1 ∧
    (handleNetworkErrorHTTP false now e short reason s).1.retryCount = -1 ∧
    (handleNetworkErrorHTTP false now e short reason s).2 = none ∧
    (handleTemporaryError now2 short2 reason2
        (handleNetworkErrorHTTP false now e short reason s).1).2 = 60 := by
  have hdelay : ∀ t : DlState, t.retryCount = -1 →
      (handleTemporaryError now2 short2 reason2 t).2 = 60 := by
    intro t ht
    rw [handleTemporaryError_delay, ht]
    decide
  cases e <;> (try exact absurd hperm (by decide)) <;>
    cases hf : s.file <;>
      refine ⟨?_, ?_, ?_, ?_, ?_, ?_, hdelay _ ?_⟩ <;>
        simp [handleNetworkErrorHTTP, NetworkErr.isNetworkError,
          NetworkErr.isPermanentClass, handleErrorHTTP, handleError, hf]

/-- Witness for C9: an unknown-host failure on a downloader holding a
50000-byte partial file. -/
theorem http_permanent_error_resets_witness :
    (handleNetworkErrorHTTP false 0 .unknownHostError "s" "r"
        { freshDownloader (some 50000) with currentSize := 50000 }).1.file = none ∧
    (handleNetworkErrorHTTP false 0 .unknownHostError "s" "r"
        { freshDownloader (some 50000) with currentSize := 50000 }).1.retryCount = -1 ∧
    (handleTemporaryError 5 "s2" "r2"
        (handleNetworkErrorHTTP false 0 .unknownHostError "s" "r"
          { freshDownloader (some 50000) with currentSize := 50000 }).1).2 = 60 := by
  have h := http_permanent_error_resets 0 5 "s" "r" "s2" "r2"
      { freshDownloader (some 50000) with currentSize := 50000 }
      .unknownHostError (by decide)
  exact ⟨h.2.1, h.2.2.2.2.1, h.2.2.2.2.2.2⟩

/-- Claim C10: `accept_download_size` always accepts when the
preserve-disk-space preference is off; with it on, a negative
(unknown) size is clamped to 0 and accepted iff the available bytes
minus the reserved gigabytes is at least zero, and a known size is
accepted iff it is at most that margin. -/
theorem accept_download_size_spec (gb avail size : Int) :
    acceptDownloadSize false gb avail size = true ∧
    (size < 0 → (acceptDownloadSize true gb avail size = true ↔
      0 ≤ avail - gb * 1024 * 1024 * 1024)) ∧
    (0 ≤ size → (acceptDownloadSize true gb avail size = true ↔
      size ≤ avail - gb * 1024 * 1024 * 1024)) := by
  refine ⟨by simp [acceptDownloadSize], ?_, ?_⟩
  · intro hneg
    simp [acceptDownloadSize, hneg]
  · intro hpos
    have h : ¬ size < 0 := by omega
    simp [acceptDownloadSize, h]

/-- Witness for C10: 1 GB reserved, exactly 1 GB available. -/
theorem accept_download_size_spec_witness :
    acceptDownloadSize false 1 0 5 = true ∧
    (acceptDownloadSize true 1 1073741824 (-3) = true ↔
      (0 : Int) ≤ 1073741824 - 1 * 1024 * 1024 * 1024) ∧
    (acceptDownloadSize true 1 1073741824 10 = true ↔
      (10 : Int) ≤ 1073741824 - 1 * 1024 * 1024 * 1024) :=
  ⟨(accept_download_size_spec 1 0 5).1,
   (accept_download_size_spec 1 1073741824 (-3)).2.1 (by decide),
   (accept_download_size_spec 1 1073741824 10).2.2 (by decide)⟩

/-- Claim C4: on HTTP resume, a partial file larger than the recorded
`currentSize` is truncated to exactly `currentSize` and the resume
proceeds; a smaller or missing file abandons the resume (the transfer
restarts from byte zero, i.e. `grab_url` is called with
`resume=False`). -/
theorem resume_sanity_check_spec (file : Option Nat) (currentSize : Nat) :
    (∀ m, file = some m → currentSize < m →
      resumeSanityCheck file currentSize = (true, some currentSize)) ∧
    (∀ m, file = some m → m < currentSize →
      resumeSanityCheck file currentSize = (false, some m)) ∧
    (file = none → resumeSanityCheck file currentSize = (false, none)) := by
  refine ⟨?_, ?_, ?_⟩
  · intro m hm hlt
    subst hm
    simp [resumeSanityCheck, hlt]
  · intro m hm hlt
    subst hm
    have h1 : ¬ m > currentSize := by omega
    simp [resumeSanityCheck, h1, hlt]
  · intro hm
    subst hm
    rfl

/-- Witness for C4: a 100-byte file against a recorded 40 bytes, a
10-byte file against 40, and a missing file. -/
theorem resume_sanity_check_spec_witness :
    ((some 100 : Option Nat) = some 100 ∧ 40 < 100 ∧
      resumeSanityCheck (some 100) 40 = (true, some 40)) ∧
    (resumeSanityCheck (some 10) 40 = (false, some 10)) ∧
    (resumeSanityCheck none 40 = (false, none)) :=
  ⟨⟨rfl, by decide, (resume_sanity_check_spec (some 100) 40).1 100 rfl (by decide)⟩,
   (resume_sanity_check_spec (some 10) 40).2.1 10 rfl (by decide),
   (resume_sanity_check_spec none 40).2.2 rfl⟩

/-- Unrolled behaviour of `commitAux`: starting with `fuel` rounds
left and `k` rounds done, either some round `j ≤ fuel` ends with no
pending work, or the assertion fires and every one of the `fuel`
rounds still had pending work. -/
lemma commitAux_spec {α : Type} (step : List α → List α) :
    ∀ (fuel : Nat) (p : List α) (k : Nat),
      (∃ j, 1 ≤ j ∧ j ≤ fuel ∧ commitAux step fuel p k = .ok (k + j) ∧
        step^[j] p = []) ∨
      (commitAux step fuel p k = .assertionFailure ∧
        ∀ j, 1 ≤ j → j ≤ fuel → step^[j] p ≠ []) := by
  intro fuel
  induction fuel with
  | zero =>
    intro p k
    right
    exact ⟨rfl, fun j h1 h2 => absurd h2 (by omega)⟩
  | succ fuel ih =>
    intro p k
    by_cases h : (step p).isEmpty
    · left
      refine ⟨1, le_refl 1, by omega, ?_, ?_⟩
      · simp [commitAux, h]
      · simpa using h
    · rcases ih (step p) (k + 1) with ⟨j, hj1, hj2, hj3, hj4⟩ | ⟨h1, h2⟩
      · left
        refine ⟨j + 1, by omega, by omega, ?_, ?_⟩
        · have : commitAux step (fuel + 1) p k = commitAux step fuel (step p) (k + 1) := by
            simp [commitAux, h]
          rw [this, hj3]
          congr 1
          omega
        · rw [Function.iterate_succ_apply]
          exact hj4
      · right
        refine ⟨by simp [commitAux, h, h1], ?_⟩
        intro j hj1 hj2
        obtain ⟨j1, rfl⟩ : ∃ j1, j = j1 + 1 := ⟨j - 1, by omega⟩
        rw [Function.iterate_succ_apply]
        rcases Nat.eq_zero_or_pos j1 with rfl | hj1p
        · simpa using h
        · exact h2 j1 hj1p (by omega)

/-- Claim C6: `BulkSQLManager.commit` terminates for every side-effect
behaviour of flushing: either within at most 100 rounds with no pending
work remaining, or with the assertion failure after 100 rounds all of
which still had pending work — never an infinite loop. -/
theorem bulk_commit_terminates {α : Type} (step : List α → List α)
    (pending : List α) :
    (∃ n, 1 ≤ n ∧ n ≤ 100 ∧ commit step pending = .ok n ∧
      step^[n] pending = []) ∨
    (commit step pending = .assertionFailure ∧
      ∀ n, 1 ≤ n → n ≤ 100 → step^[n] pending ≠ []) := by
  have h := commitAux_spec step 100 pending 0
  simpa [commit] using h

/-- Witness for C6 at a concrete flush behaviour (side effects die out
after the first round). -/
theorem bulk_commit_terminates_witness :
    (∃ n, 1 ≤ n ∧ n ≤ 100 ∧ commit (fun _ => ([] : List Nat)) [1] = .ok n ∧
      (fun _ => ([] : List Nat))^[n] [1] = []) ∨
    (commit (fun _ => ([] : List Nat)) [1] = .assertionFailure ∧
      ∀ n, 1 ≤ n → n ≤ 100 → (fun _ => ([] : List Nat))^[n] [1] ≠ []) :=
  bulk_commit_terminates (fun _ => ([] : List Nat)) [1]

/-- The decision predicate `_should_process_item` in propositional
form. -/
lemma shouldProcessItem_iff (item : MDItem) :
    shouldProcessItem item = true ↔
      (item.has_drm = true ∨ item.file_type = some "video" ∨
        (item.file_type = some "audio" ∧ item.duration = none) ∨
        item.file_type = none) := by
  unfold shouldProcessItem
  by_cases h : item.has_drm <;> simp [h]
  tauto

/-- Claim C7: an item submitted to the metadata coordinator (not
during shutdown, not already in flight) is dispatched to external
extraction iff it is flagged possibly-DRM, or its kind is "video", or
"audio" with unknown duration, or its kind is unknown; otherwise it is
marked skipped. -/
theorem metadata_dispatch_policy (inProgress : List Nat) (item : MDItem)
    (hnotin : item.id ∉ inProgress) :
    (requestUpdate false inProgress item = .dispatched ↔
      (item.has_drm = true ∨ item.file_type = some "video" ∨
        (item.file_type = some "audio" ∧ item.duration = none) ∨
        item.file_type = none)) ∧
    (requestUpdate false inProgress item = .skipped ↔
      ¬ (item.has_drm = true ∨ item.file_type = some "video" ∨
        (item.file_type = some "audio" ∧ item.duration = none) ∨
        item.file_type = none)) := by
  have hc : inProgress.contains item.id = false := by
    simpa using hnotin
  rw [← shouldProcessItem_iff]
  unfold requestUpdate
  rw [hc]
  by_cases h : shouldProcessItem item <;> simp [h]

/-- Witness for C7: an audio item with unknown duration is dispatched;
an audio item with a known duration is skipped. -/
theorem metadata_dispatch_policy_witness :
    (requestUpdate false [3] ⟨1, false, some "audio", none⟩ = .dispatched ↔
      ((⟨1, false, some "audio", none⟩ : MDItem).has_drm = true ∨
        (⟨1, false, some "audio", none⟩ : MDItem).file_type = some "video" ∨
        ((⟨1, false, some "audio", none⟩ : MDItem).file_type = some "audio" ∧
          (⟨1, false, some "audio", none⟩ : MDItem).duration = none) ∨
        (⟨1, false, some "audio", none⟩ : MDItem).file_type = none)) ∧
    requestUpdate false [3] ⟨1, false, some "audio", some 90⟩ = .skipped := by
  refine ⟨(metadata_dispatch_policy [3] ⟨1, false, some "audio", none⟩ (by decide)).1, ?_⟩
  exact (metadata_dispatch_policy [3] ⟨1, false, some "audio", some 90⟩ (by decide)).2.mpr
    (by decide)

/-- Claim C2: for an object with change-tracked simple fields `a`, `b`
and a clean dirty set, mutating only `a` and running the update leaves
the persisted `b` column unchanged, sets column `a` to the new value,
and leaves `changed_attributes` empty. -/
theorem update_touches_only_dirty (o : TrackedObj) (row : String → Int)
    (v : Int) (hclean : o.changed = []) (hsync : row "a" = o.attrs "a") :
    (update_obj [⟨"a", true⟩, ⟨"b", true⟩] (setAttr o "a" v) row).1 "a" = v ∧
    (update_obj [⟨"a", true⟩, ⟨"b", true⟩] (setAttr o "a" v) row).1 "b" = row "b" ∧
    (update_obj [⟨"a", true⟩, ⟨"b", true⟩] (setAttr o "a" v) row).2.changed = [] := by
  by_cases h : o.attrs "a" = v
  · simp [update_obj, setAttr, hclean, h, includedInUpdate, hsync]
  · simp [update_obj, setAttr, hclean, h, includedInUpdate]

/-- Witness for C2 at a concrete object/row pair. -/
theorem update_touches_only_dirty_witness :
    (update_obj [⟨"a", true⟩, ⟨"b", true⟩]
      (setAttr ⟨fun n => if n = "a" then 1 else 2, []⟩ "a" 5)
      (fun n => if n = "a" then 1 else 2)).1 "a" = 5 ∧
    (update_obj [⟨"a", true⟩, ⟨"b", true⟩]
      (setAttr ⟨fun n => if n = "a" then 1 else 2, []⟩ "a" 5)
      (fun n => if n = "a" then 1 else 2)).1 "b" =
        (fun n : String => if n = "a" then (1 : Int) else 2) "b" ∧
    (update_obj [⟨"a", true⟩, ⟨"b", true⟩]
      (setAttr ⟨fun n => if n = "a" then 1 else 2, []⟩ "a" 5)
      (fun n => if n = "a" then 1 else 2)).2.changed = [] :=
  update_touches_only_dirty ⟨fun n => if n = "a" then 1 else 2, []⟩
    (fun n => if n = "a" then 1 else 2) 5 rfl rfl

/-- Claim C8: routing of a command-line argument that is not one of
the URI schemes handled earlier.  An existing file is dispatched by
extension: `.torrent`/`.tor` parses the info-hash (with a dialog, not a
silent skip, on corrupt or unreadable files) and starts or resumes a
download deduplicated by info-hash against the manual feed;
`.rss`/`.rdf`/`.atom`/`.ato` adds a feed from the local file;
`.miro`/`.democracy`/`.dem`/`.opml` imports an OPML list without a
summary dialog; any other existing file is added as a local video; a
nonexistent argument is only logged. -/
theorem commandline_classification (fsExists isMagnet : String → Bool)
    (parseTorrent : String → TorrentParse) (items : List CLFeedItem)
    (arg : String)
    (h1 : pyStartswith "miro:" arg = false)
    (h2 : pyStartswith "democracy:" arg = false)
    (h3 : pyStartswith "http:" arg = false)
    (h4 : pyStartswith "https:" arg = false)
    (h5 : pyStartswith "feed:" arg = false)
    (h6 : pyStartswith "feeds:" arg = false)
    (h7 : isMagnet arg = false) :
    (fsExists arg = false →
      classifyArg fsExists isMagnet parseTorrent items arg = .loggedNonexistent) ∧
    (fsExists arg = true →
      (pyLower (splitextExt arg) = ".torrent" ∨ pyLower (splitextExt arg) = ".tor" →
        (parseTorrent arg = .corrupt →
          classifyArg fsExists isMagnet parseTorrent items arg = .torrentCorruptDialog) ∧
        (parseTorrent arg = .ioError →
          classifyArg fsExists isMagnet parseTorrent items arg = .torrentFileErrorDialog) ∧
        (∀ ih, parseTorrent arg = .ok ih →
          classifyArg fsExists isMagnet parseTorrent items arg
            = .torrent (add_torrent items ih) ∧
          (items.find? (fun i => i.infohash = some ih) = none →
            add_torrent items ih = .startedNewDownload) ∧
          (∀ it, items.find? (fun i => i.infohash = some ih) = some it →
            ((it.dlState = "paused" ∨ it.dlState = "stopped") →
              add_torrent items ih = .resumedExisting) ∧
            (¬ (it.dlState = "paused" ∨ it.dlState = "stopped") →
              add_torrent items ih = .alreadyActive)))) ∧
      (pyLower (splitextExt arg) = ".rss" ∨ pyLower (splitextExt arg) = ".rdf" ∨
          pyLower (splitextExt arg) = ".atom" ∨ pyLower (splitextExt arg) = ".ato" →
        classifyArg fsExists isMagnet parseTorrent items arg = .addFeedFromFile) ∧
      (pyLower (splitextExt arg) = ".miro" ∨ pyLower (splitextExt arg) = ".democracy" ∨
          pyLower (splitextExt arg) = ".dem" ∨ pyLower (splitextExt arg) = ".opml" →
        classifyArg fsExists isMagnet parseTorrent items arg = .importOpml false) ∧
      (pyLower (splitextExt arg) ∉
          ([".torrent", ".tor", ".rss", ".rdf", ".atom", ".ato",
            ".miro", ".democracy", ".dem", ".opml"] : List String) →
        classifyArg fsExists isMagnet parseTorrent items arg = .addVideo)) := by
  constructor
  · intro hfe
    unfold classifyArg
    simp [h1, h2, h3, h4, h5, h6, h7, hfe]
  · intro hfe
    refine ⟨?_, ?_, ?_, ?_⟩
    · intro hext
      refine ⟨?_, ?_, ?_⟩
      · intro hp
        unfold classifyArg
        rcases hext with h | h <;>
          simp [h1, h2, h3, h4, h5, h6, h7, hfe, h, hp]
      · intro hp
        unfold classifyArg
        rcases hext with h | h <;>
          simp [h1, h2, h3, h4, h5, h6, h7, hfe, h, hp]
      · intro ih hp
        refine ⟨?_, ?_, ?_⟩
        · unfold classifyArg
          rcases hext with h | h <;>
            simp [h1, h2, h3, h4, h5, h6, h7, hfe, h, hp]
        · intro hfind
          simp [add_torrent, hfind]
        · intro it hfind
          constructor
          · intro hst
            simp only [add_torrent, hfind]
            exact if_pos hst
          · intro hst
            simp only [add_torrent, hfind]
            exact if_neg hst
    · intro hext
      unfold classifyArg
      rcases hext with h | h | h | h <;>
        simp [h1, h2, h3, h4, h5, h6, h7, hfe, h]
    · intro hext
      unfold classifyArg
      rcases hext with h | h | h | h <;>
        simp [h1, h2, h3, h4, h5, h6, h7, hfe, h]
    · intro hext
      simp only [List.mem_cons, List.not_mem_nil] at hext
      push_neg at hext
      obtain ⟨e1, e2, e3, e4, e5, e6, e7, e8, e9, e10, _⟩ := hext
      unfold classifyArg
      simp [h1, h2, h3, h4, h5, h6, h7, hfe,
        e1, e2, e3, e4, e5, e6, e7, e8, e9, e10]

/-- Witness for C8: a representative input set — a torrent path (fresh
and duplicate-paused), an opml path, a bare media path, and a
nonexistent path. -/
theorem commandline_classification_witness :
    classifyArg (fun s => s = "/tmp/x.torrent") (fun _ => false)
      (fun _ => .ok "H") [] "/tmp/x.torrent"
        = .torrent .startedNewDownload ∧
    classifyArg (fun s => s = "/tmp/x.torrent") (fun _ => false)
      (fun _ => .ok "H") [⟨some "H", "paused"⟩] "/tmp/x.torrent"
        = .torrent .resumedExisting ∧
    classifyArg (fun s => s = "/tmp/subs.opml") (fun _ => false)
      (fun _ => .corrupt) [] "/tmp/subs.opml" = .importOpml false ∧
    classifyArg (fun s => s = "/tmp/movie.avi") (fun _ => false)
      (fun _ => .corrupt) [] "/tmp/movie.avi" = .addVideo ∧
    classifyArg (fun _ => false) (fun _ => false)
      (fun _ => .corrupt) [] "/tmp/gone.avi" = .loggedNonexistent := by
  refine ⟨?_, ?_, ?_, ?_, ?_⟩
  · have h := (commandline_classification (fun s => s = "/tmp/x.torrent")
      (fun _ => false) (fun _ => .ok "H") [] "/tmp/x.torrent"
      (by decide) (by decide) (by decide) (by decide) (by decide) (by decide)
      rfl).2 (by decide)
    have h2 := (h.1 (by decide)).2.2 "H" rfl
    rw [h2.1, h2.2.1 rfl]
  · have h := (commandline_classification (fun s => s = "/tmp/x.torrent")
      (fun _ => false) (fun _ => .ok "H") [⟨some "H", "paused"⟩] "/tmp/x.torrent"
      (by decide) (by decide) (by decide) (by decide) (by decide) (by decide)
      rfl).2 (by decide)
    have h2 := (h.1 (by decide)).2.2 "H" rfl
    rw [h2.1, (h2.2.2 ⟨some "H", "paused"⟩ (by decide)).1 (Or.inl rfl)]
  · exact ((commandline_classification (fun s => s = "/tmp/subs.opml")
      (fun _ => false) (fun _ => .corrupt) [] "/tmp/subs.opml"
      (by decide) (by decide) (by decide) (by decide) (by decide) (by decide)
      rfl).2 (by decide)).2.2.1 (by decide)
  · exact ((commandline_classification (fun s => s = "/tmp/movie.avi")
      (fun _ => false) (fun _ => .corrupt) [] "/tmp/movie.avi"
      (by decide) (by decide) (by decide) (by decide) (by decide) (by decide)
      rfl).2 (by decide)).2.2.2 (by decide)
  · exact (commandline_classification (fun _ => false)
      (fun _ => false) (fun _ => .corrupt) [] "/tmp/gone.avi"
      (by decide) (by decide) (by decide) (by decide) (by decide) (by decide)
      rfl).1 rfl

/-- Updating key `k` makes `k`'s binding `v`. -/
lemma alGet_alSetN_self (m : List (Nat × Nat)) (k v : Nat) :
    alGet (alSetN m k v) k = some v := by
  induction m with
  | nil => simp [alSetN, alGet]
  | cons p rest ih =>
    by_cases h : p.1 = k
    · simp [alSetN, h, alGet]
    · rw [alSetN, if_neg h]
      unfold alGet at ih ⊢
      rw [List.find?_cons_of_neg _ (by simp [h])]
      exact ih

/-- The infos built by `_make_added_list`: one per added id, in order,
carrying the object's current field value. -/
lemma addedPass_infos (os : List (Nat × Nat)) (l : List Nat) :
    ∀ ls, (addedPass os ls l).1 = l.map (fun i => (i, alGetD os i 0)) := by
  induction l with
  | nil => intro ls; rfl
  | cons i rest ih => intro ls; simp [addedPass, ih]

/-- Every info built by `_make_changed_list` belongs to an id of the
changed buffer. -/
lemma changedPass_fst_mem (os : List (Nat × Nat)) (l : List Nat) :
    ∀ ls p, p ∈ (changedPass os ls l).1 → p.1 ∈ l := by
  induction l with
  | nil =>
    intro ls p hp
    simp [changedPass] at hp
  | cons i rest ih =>
    intro ls p hp
    unfold changedPass at hp
    rcases hni : alGet ls i with _ | prev <;> simp only [hni] at hp
    · simp only [List.mem_cons] at hp ⊢
      rcases hp with rfl | hp
      · left; rfl
      · right; exact ih _ p hp
    · by_cases hpd : prev = alGetD os i 0
      · rw [if_pos hpd] at hp
        exact List.mem_cons_of_mem i (ih _ p hp)
      · rw [if_neg hpd] at hp
        simp only [List.mem_cons] at hp ⊢
        rcases hp with rfl | hp
        · left; rfl
        · right; exact ih _ p hp

/-- The `removed` payload of a flush is the removed buffer. -/
lemma flush_removed (s : TrackerState) : (flush s).1.removed = s.removed := rfl

/-- The `added` payload of a flush: one info per `added_order` entry
still present in the `added` dict, in order. -/
lemma flush_added (s : TrackerState) :
    (flush s).1.added
      = (s.addedOrder.filter (fun i => s.added.contains i)).map
          (fun i => (i, alGetD s.objState i 0)) := by
  simp [flush, addedPass_infos]

/-- The `changed` payload of a flush only mentions ids of the changed
buffer. -/
lemma flush_changed_fst (s : TrackerState) (p : Nat × Nat)
    (hp : p ∈ (flush s).1.changed) : p.1 ∈ s.changed := by
  unfold flush at hp
  exact changedPass_fst_mem _ _ _ p hp

/-- A flush of buffers not involving id `i` sends no notification
about `i`. -/
lemma flush_not_mentions (s : TrackerState) (i : Nat)
    (ha : i ∉ s.added) (hc : i ∉ s.changed) (hr : i ∉ s.removed) :
    ¬ (flush s).1.mentions i := by
  intro h
  rcases h with h | h | h
  · rw [flush_added] at h
    simp only [List.map_map, List.mem_map, Function.comp] at h
    obtain ⟨j, hj, rfl⟩ := h
    exact ha (by simpa using (List.mem_filter.1 hj).2)
  · obtain ⟨p, hp, rfl⟩ := List.mem_map.1 h
    exact hc (flush_changed_fst s p hp)
  · rw [flush_removed] at h
    exact hr h

/-- Buffer non-membership of an id, across all four event buffers. -/
@[reducible] def NB (i : Nat) (s : TrackerState) : Prop :=
  i ∉ s.added ∧ i ∉ s.addedOrder ∧ i ∉ s.changed ∧ i ∉ s.removed

/-- `restState` has empty buffers. -/
lemma NB_restState (i : Nat) (os ls : List (Nat × Nat)) :
    NB i (restState os ls) := by
  refine ⟨?_, ?_, ?_, ?_⟩ <;> simp [restState]

/-- The state a flush leaves behind has empty buffers. -/
lemma NB_flush (i : Nat) (s : TrackerState) : NB i (flush s).2 := by
  refine ⟨?_, ?_, ?_, ?_⟩ <;> simp [flush]

/-- `setInsert` only adds the inserted element. -/
lemma mem_setInsert (l : List Nat) (j i : Nat) (h : i ∈ setInsert l j) :
    i = j ∨ i ∈ l := by
  unfold setInsert at h
  split at h
  · right; exact h
  · simpa using h

/-- An event about a different id neither sends a message mentioning
`i` nor lets `i` into any buffer. -/
lemma applyEvent_preserves (i : Nat) (s : TrackerState) (e : TEvent)
    (hne : e.eventId ≠ i) (hnb : NB i s) :
    (∀ m ∈ (applyEvent s e).1, ¬ m.mentions i) ∧ NB i (applyEvent s e).2 := by
  obtain ⟨ha, hao, hc, hr⟩ := hnb
  cases e with
  | added j d =>
    replace hne : j ≠ i := hne
    simp only [applyEvent]
    by_cases hrem : s.removed.contains j = true
    · rw [if_pos hrem]
      refine ⟨?_, ?_, ?_, ?_, ?_⟩
      · intro m hm
        have hm2 : m ∈ (if (flush { s with objState := alSetN s.objState j d }).1.isAllEmpty
            then [] else [(flush { s with objState := alSetN s.objState j d }).1]) := hm
        have hmm : m = (flush { s with objState := alSetN s.objState j d }).1 := by
          split at hm2
          · simp at hm2
          · simpa using hm2
        subst hmm
        exact flush_not_mentions _ i ha hc hr
      · intro hmem
        have hmem2 : i ∈ setInsert
            (flush { s with objState := alSetN s.objState j d }).2.added j := hmem
        rcases mem_setInsert _ _ _ hmem2 with rfl | hmem3
        · exact hne rfl
        · exact (NB_flush i { s with objState := alSetN s.objState j d }).1 hmem3
      · intro hmem
        have hmem2 : i ∈
            (flush { s with objState := alSetN s.objState j d }).2.addedOrder ++ [j] := hmem
        rcases List.mem_append.1 hmem2 with hmem3 | hmem3
        · exact (NB_flush i { s with objState := alSetN s.objState j d }).2.1 hmem3
        · have hij : i = j := by simpa using hmem3
          exact hne hij.symm
      · exact (NB_flush i { s with objState := alSetN s.objState j d }).2.2.1
      · exact (NB_flush i { s with objState := alSetN s.objState j d }).2.2.2
    · rw [if_neg hrem]
      refine ⟨?_, ?_, ?_, ?_, ?_⟩
      · intro m hm
        have hm2 : m ∈ ([] : List Message) := hm
        simp at hm2
      · intro hmem
        have hmem2 : i ∈ setInsert s.added j := hmem
        rcases mem_setInsert _ _ _ hmem2 with rfl | hmem3
        · exact hne rfl
        · exact ha hmem3
      · intro hmem
        have hmem2 : i ∈ s.addedOrder ++ [j] := hmem
        rcases List.mem_append.1 hmem2 with hmem3 | hmem3
        · exact hao hmem3
        · have hij : i = j := by simpa using hmem3
          exact hne hij.symm
      · exact hc
      · exact hr
  | removedId j =>
    replace hne : j ≠ i := hne
    simp only [applyEvent]
    by_cases h1 : s.added.contains j = true
    · rw [if_pos h1]
      refine ⟨?_, ?_, ?_, ?_, ?_⟩
      · intro m hm
        have hm2 : m ∈ ([] : List Message) := hm
        simp at hm2
      · intro hmem
        have hmem2 : i ∈ s.added.filter (fun x => x ≠ j) := hmem
        exact ha (List.mem_of_mem_filter hmem2)
      · exact hao
      · exact hc
      · exact hr
    · rw [if_neg h1]
      by_cases h2 : s.changed.contains j = true
      · rw [if_pos h2]
        refine ⟨?_, ?_, ?_, ?_, ?_⟩
        · intro m hm
          have hm2 : m ∈ ([] : List Message) := hm
          simp at hm2
        · exact ha
        · exact hao
        · intro hmem
          have hmem2 : i ∈ s.changed.filter (fun x => x ≠ j) := hmem
          exact hc (List.mem_of_mem_filter hmem2)
        · intro hmem
          have hmem2 : i ∈ setInsert s.removed j := hmem
          rcases mem_setInsert _ _ _ hmem2 with rfl | hmem3
          · exact hne rfl
          · exact hr hmem3
      · rw [if_neg h2]
        refine ⟨?_, ?_, ?_, ?_, ?_⟩
        · intro m hm
          have hm2 : m ∈ ([] : List Message) := hm
          simp at hm2
        · exact ha
        · exact hao
        · exact hc
        · intro hmem
          have hmem2 : i ∈ setInsert s.removed j := hmem
          rcases mem_setInsert _ _ _ hmem2 with rfl | hmem3
          · exact hne rfl
          · exact hr hmem3
  | changed j d =>
    replace hne : j ≠ i := hne
    simp only [applyEvent]
    by_cases h1 : s.added.contains j = true
    · rw [if_pos h1]
      refine ⟨?_, ?_, ?_, ?_, ?_⟩
      · intro m hm
        have hm2 : m ∈ ([] : List Message) := hm
        simp at hm2
      · exact ha
      · exact hao
      · exact hc
      · exact hr
    · rw [if_neg h1]
      refine ⟨?_, ?_, ?_, ?_, ?_⟩
      · intro m hm
        have hm2 : m ∈ ([] : List Message) := hm
        simp at hm2
      · exact ha
      · exact hao
      · intro hmem
        have hmem2 : i ∈ setInsert s.changed j := hmem
        rcases mem_setInsert _ _ _ hmem2 with rfl | hmem3
        · exact hne rfl
        · exact hc hmem3
      · exact hr

/-- Events about other ids: no message of the whole run mentions `i`,
and `i` ends up in no buffer. -/
lemma applyEvents_preserves (i : Nat) (es : List TEvent) :
    ∀ s, (∀ e ∈ es, e.eventId ≠ i) → NB i s →
      (∀ m ∈ (applyEvents s es).1, ¬ m.mentions i) ∧
      NB i (applyEvents s es).2 := by
  induction es with
  | nil =>
    intro s _ hnb
    exact ⟨by intro m hm; simp [applyEvents] at hm, hnb⟩
  | cons e rest ih =>
    intro s hes hnb
    have h1 := applyEvent_preserves i s e (hes e (List.mem_cons_self e rest)) hnb
    have h2 := ih (applyEvent s e).2
      (fun x hx => hes x (List.mem_cons_of_mem e hx)) h1.2
    refine ⟨?_, h2.2⟩
    intro m hm
    unfold applyEvents at hm
    rcases List.mem_append.1 hm with hm | hm
    · exact h1.1 m hm
    · exact h2.1 m hm

/-- Splitting a run of events. -/
lemma applyEvents_append (l1 l2 : List TEvent) :
    ∀ s, applyEvents s (l1 ++ l2)
      = ((applyEvents s l1).1 ++ (applyEvents (applyEvents s l1).2 l2).1,
         (applyEvents (applyEvents s l1).2 l2).2) := by
  induction l1 with
  | nil => intro s; simp [applyEvents]
  | cons e rest ih => intro s; simp [applyEvents, ih, List.append_assoc]

/-- `setInsert` makes its element present. -/
lemma contains_setInsert_self (l : List Nat) (x : Nat) :
    (setInsert l x).contains x = true := by
  unfold setInsert
  split
  · assumption
  · simp

/-- `setInsert` makes its element a member. -/
lemma mem_setInsert_self (l : List Nat) (x : Nat) : x ∈ setInsert l x := by
  have h := contains_setInsert_self l x
  simpa using h

/-- Reading back the binding just written. -/
lemma alGetD_alSetN_self (m : List (Nat × Nat)) (k v d : Nat) :
    alGetD (alSetN m k v) k d = v := by
  simp [alGetD, alGet_alSetN_self]

/-- Filtering the added infos for an id that occurs once at the end of
the order list (and is in the added set) yields exactly its info. -/
lemma added_filter_unique (A addedSet : List Nat) (os2 : List (Nat × Nat))
    (i : Nat) (hA : i ∉ A) (hset : addedSet.contains i = true) :
    (((A ++ [i]).filter (fun j => addedSet.contains j)).map
        (fun j => (j, alGetD os2 j 0))).filter (fun p => p.1 = i)
      = [(i, alGetD os2 i 0)] := by
  have hmem : i ∈ addedSet := by simpa using hset
  induction A with
  | nil => simp [hmem]
  | cons a A ih =>
    have hai : a ≠ i := fun h => hA (h ▸ List.mem_cons_self a A)
    have hA2 : i ∉ A := fun h => hA (List.mem_cons_of_mem a h)
    by_cases hca : a ∈ addedSet
    · have hc1 : (addedSet.contains a) = true := by simpa using hca
      simp only [List.cons_append, List.filter_cons, hc1, if_pos rfl, List.map_cons,
        List.filter]
      rw [show (decide ((a, alGetD os2 a 0).1 = i)) = false from by simp [hai]]
      exact ih hA2
    · have hc1 : (addedSet.contains a) = false := by simpa using hca
      simp only [List.cons_append, List.filter_cons, hc1]
      exact ih hA2

/-- Claim C1 scenario: an id added and then removed between two
flushes is dropped entirely — the buffering emits nothing and the next
flush does not mention it. -/
lemma scenario_add_remove (s1 : TrackerState) (i d : Nat) (h : NB i s1) :
    (applyEvents s1 [.added i d, .removedId i]).1 = [] ∧
    ¬ (flush (applyEvents s1 [.added i d, .removedId i]).2).1.mentions i := by
  obtain ⟨ha, hao, hc, hr⟩ := h
  have hnr : ¬ (s1.removed.contains i = true) := by simpa using hr
  have h1 : applyEvent s1 (.added i d)
      = ([], { s1 with objState := alSetN s1.objState i d
                       added := setInsert s1.added i
                       addedOrder := s1.addedOrder ++ [i] }) := by
    simp only [applyEvent]
    rw [if_neg hnr]
  have hpos : (({ s1 with objState := alSetN s1.objState i d
                          added := setInsert s1.added i
                          addedOrder := s1.addedOrder ++ [i] } : TrackerState)).added.contains i
      = true := contains_setInsert_self s1.added i
  have h2 : applyEvent
      ({ s1 with objState := alSetN s1.objState i d
                 added := setInsert s1.added i
                 addedOrder := s1.addedOrder ++ [i] } : TrackerState) (.removedId i)
      = ([], { s1 with objState := alSetN s1.objState i d
                       added := (setInsert s1.added i).filter (fun x => x ≠ i)
                       addedOrder := s1.addedOrder ++ [i] }) := by
    simp only [applyEvent]
    rw [if_pos hpos]
  have hrun : applyEvents s1 [.added i d, .removedId i]
      = ([], { s1 with objState := alSetN s1.objState i d
                       added := (setInsert s1.added i).filter (fun x => x ≠ i)
                       addedOrder := s1.addedOrder ++ [i] }) := by
    simp [applyEvents, h1, h2]
  rw [hrun]
  refine ⟨rfl, ?_⟩
  apply flush_not_mentions
  · simp
  · exact hc
  · exact hr

/-- Claim C1 scenario: an id added and then changed between two
flushes is represented in the flushed message purely as the updated
"added" entry. -/
lemma scenario_add_change (s1 : TrackerState) (i d1 d2 : Nat) (h : NB i s1) :
    (applyEvents s1 [.added i d1, .changed i d2]).1 = [] ∧
    (flush (applyEvents s1 [.added i d1, .changed i d2]).2).1.added.filter
        (fun p => p.1 = i) = [(i, d2)] ∧
    i ∉ (flush (applyEvents s1 [.added i d1, .changed i d2]).2).1.changed.map
        Prod.fst ∧
    i ∉ (flush (applyEvents s1 [.added i d1, .changed i d2]).2).1.removed := by
  obtain ⟨ha, hao, hc, hr⟩ := h
  have hnr : ¬ (s1.removed.contains i = true) := by simpa using hr
  have h1 : applyEvent s1 (.added i d1)
      = ([], { s1 with objState := alSetN s1.objState i d1
                       added := setInsert s1.added i
                       addedOrder := s1.addedOrder ++ [i] }) := by
    simp only [applyEvent]
    rw [if_neg hnr]
  have hpos : (({ s1 with objState := alSetN s1.objState i d1
                          added := setInsert s1.added i
                          addedOrder := s1.addedOrder ++ [i] } : TrackerState)).added.contains i
      = true := contains_setInsert_self s1.added i
  have h2 : applyEvent
      ({ s1 with objState := alSetN s1.objState i d1
                 added := setInsert s1.added i
                 addedOrder := s1.addedOrder ++ [i] } : TrackerState) (.changed i d2)
      = ([], { s1 with objState := alSetN (alSetN s1.objState i d1) i d2
                       added := setInsert s1.added i
                       addedOrder := s1.addedOrder ++ [i] }) := by
    simp only [applyEvent]
    rw [if_pos hpos]
  have hrun : applyEvents s1 [.added i d1, .changed i d2]
      = ([], { s1 with objState := alSetN (alSetN s1.objState i d1) i d2
                       added := setInsert s1.added i
                       addedOrder := s1.addedOrder ++ [i] }) := by
    simp [applyEvents, h1, h2]
  rw [hrun]
  refine ⟨rfl, ?_, ?_, ?_⟩
  · rw [flush_added]
    have hu := added_filter_unique s1.addedOrder (setInsert s1.added i)
      (alSetN (alSetN s1.objState i d1) i d2) i hao (contains_setInsert_self _ _)
    rw [alGetD_alSetN_self] at hu
    exact hu
  · intro hmem
    obtain ⟨p, hp, hfst⟩ := List.mem_map.1 hmem
    have hmm := flush_changed_fst _ p hp
    rw [hfst] at hmm
    exact hc hmm
  · exact hr

/-- Claim C1 scenario: an id changed and then removed between two
flushes appears only in the removed set of the flushed message. -/
lemma scenario_change_remove (s1 : TrackerState) (i dc : Nat) (h : NB i s1) :
    (applyEvents s1 [.changed i dc, .removedId i]).1 = [] ∧
    i ∈ (flush (applyEvents s1 [.changed i dc, .removedId i]).2).1.removed ∧
    i ∉ (flush (applyEvents s1 [.changed i dc, .removedId i]).2).1.added.map
        Prod.fst ∧
    i ∉ (flush (applyEvents s1 [.changed i dc, .removedId i]).2).1.changed.map
        Prod.fst := by
  obtain ⟨ha, hao, hc, hr⟩ := h
  have hna : ¬ (s1.added.contains i = true) := by simpa using ha
  have h1 : applyEvent s1 (.changed i dc)
      = ([], { s1 with objState := alSetN s1.objState i dc
                       changed := setInsert s1.changed i }) := by
    simp only [applyEvent]
    rw [if_neg hna]
  have hna2 : ¬ ((({ s1 with objState := alSetN s1.objState i dc
                             changed := setInsert s1.changed i } : TrackerState)).added.contains i
      = true) := hna
  have hpos : (({ s1 with objState := alSetN s1.objState i dc
                          changed := setInsert s1.changed i } : TrackerState)).changed.contains i
      = true := contains_setInsert_self s1.changed i
  have h2 : applyEvent
      ({ s1 with objState := alSetN s1.objState i dc
                 changed := setInsert s1.changed i } : TrackerState) (.removedId i)
      = ([], { s1 with objState := alSetN s1.objState i dc
                       changed := (setInsert s1.changed i).filter (fun x => x ≠ i)
                       removed := setInsert s1.removed i }) := by
    simp only [applyEvent]
    rw [if_neg hna2, if_pos hpos]
  have hrun : applyEvents s1 [.changed i dc, .removedId i]
      = ([], { s1 with objState := alSetN s1.objState i dc
                       changed := (setInsert s1.changed i).filter (fun x => x ≠ i)
                       removed := setInsert s1.removed i }) := by
    simp [applyEvents, h1, h2]
  rw [hrun]
  refine ⟨rfl, ?_, ?_, ?_⟩
  · rw [flush_removed]
    exact mem_setInsert_self s1.removed i
  · intro hmem
    rw [flush_added] at hmem
    simp only [List.map_map, List.mem_map, Function.comp] at hmem
    obtain ⟨j, hj, hfst⟩ := hmem
    rw [hfst] at hj
    exact hao (List.mem_of_mem_filter hj)
  · intro hmem
    obtain ⟨p, hp, hfst⟩ := List.mem_map.1 hmem
    have hmm := flush_changed_fst _ p hp
    rw [hfst] at hmm
    have hmm2 : i ∈ (setInsert s1.changed i).filter (fun x => x ≠ i) := hmm
    simp at hmm2

/-- Claim C1: for every sequence of tracker events buffered between
two flushes and every id the other events do not concern: an id
removed while still buffered as added is dropped entirely and produces
no notification at all; an id added and then changed is represented
only as the updated "added" entry of the flushed message; an id
changed and then removed appears only in the "removed" set of the
flushed message, its buffered "changed" entry discarded. -/
theorem viewtracker_flush_reconciliation (os ls : List (Nat × Nat))
    (es : List TEvent) (i d d1 d2 dc : Nat)
    (hes : ∀ e ∈ es, e.eventId ≠ i) :
    ((∀ m ∈ (applyEvents (restState os ls) (es ++ [.added i d, .removedId i])).1,
        ¬ m.mentions i) ∧
      ¬ (flush (applyEvents (restState os ls)
          (es ++ [.added i d, .removedId i])).2).1.mentions i) ∧
    ((flush (applyEvents (restState os ls)
          (es ++ [.added i d1, .changed i d2])).2).1.added.filter
            (fun p => p.1 = i) = [(i, d2)] ∧
      i ∉ (flush (applyEvents (restState os ls)
          (es ++ [.added i d1, .changed i d2])).2).1.changed.map Prod.fst ∧
      i ∉ (flush (applyEvents (restState os ls)
          (es ++ [.added i d1, .changed i d2])).2).1.removed) ∧
    (i ∈ (flush (applyEvents (restState os ls)
          (es ++ [.changed i dc, .removedId i])).2).1.removed ∧
      i ∉ (flush (applyEvents (restState os ls)
          (es ++ [.changed i dc, .removedId i])).2).1.added.map Prod.fst ∧
      i ∉ (flush (applyEvents (restState os ls)
          (es ++ [.changed i dc, .removedId i])).2).1.changed.map Prod.fst) := by
  have hpres := applyEvents_preserves i es (restState os ls) hes (NB_restState i os ls)
  obtain ⟨hmsgs, hnb⟩ := hpres
  refine ⟨?_, ?_, ?_⟩
  · have hA := scenario_add_remove (applyEvents (restState os ls) es).2 i d hnb
    rw [applyEvents_append]
    constructor
    · intro m hm
      rcases List.mem_append.1 hm with hm | hm
      · exact hmsgs m hm
      · rw [hA.1] at hm
        simp at hm
    · exact hA.2
  · have hB := scenario_add_change (applyEvents (restState os ls) es).2 i d1 d2 hnb
    rw [applyEvents_append]
    exact hB.2
  · have hC := scenario_change_remove (applyEvents (restState os ls) es).2 i dc hnb
    rw [applyEvents_append]
    exact hC.2

/-- Witness for C1: one other object's events interleaved, id 5 as the
tracked id. -/
theorem viewtracker_flush_reconciliation_witness :
    ((∀ m ∈ (applyEvents (restState [] [])
        ([.added 2 0] ++ [.added 5 10, .removedId 5])).1, ¬ m.mentions 5) ∧
      ¬ (flush (applyEvents (restState [] [])
          ([.added 2 0] ++ [.added 5 10, .removedId 5])).2).1.mentions 5) ∧
    ((flush (applyEvents (restState [] [])
          ([.added 2 0] ++ [.added 5 10, .changed 5 11])).2).1.added.filter
            (fun p => p.1 = 5) = [(5, 11)] ∧
      5 ∉ (flush (applyEvents (restState [] [])
          ([.added 2 0] ++ [.added 5 10, .changed 5 11])).2).1.changed.map Prod.fst ∧
      5 ∉ (flush (applyEvents (restState [] [])
          ([.added 2 0] ++ [.added 5 10, .changed 5 11])).2).1.removed) ∧
    (5 ∈ (flush (applyEvents (restState [] [])
          ([.added 2 0] ++ [.changed 5 12, .removedId 5])).2).1.removed ∧
      5 ∉ (flush (applyEvents (restState [] [])
          ([.added 2 0] ++ [.changed 5 12, .removedId 5])).2).1.added.map Prod.fst ∧
      5 ∉ (flush (applyEvents (restState [] [])
          ([.added 2 0] ++ [.changed 5 12, .removedId 5])).2).1.changed.map Prod.fst) :=
  viewtracker_flush_reconciliation [] [] [.added 2 0] 5 10 10 11 12 (by decide)

/-! ### Base32 / base16 codec lemmas for claim C5 -/

/-- Base32 decoding distributes over append. -/
lemma b32decodeAux_append (l1 l2 : List Char) : ∀ acc,
    b32decodeAux acc (l1 ++ l2)
      = (b32decodeAux acc l1).bind (fun a => b32decodeAux a l2) := by
  induction l1 with
  | nil => intro acc; rfl
  | cons c rest ih =>
    intro acc
    simp only [List.cons_append, b32decodeAux]
    cases hv : b32ValOf c
    · rfl
    · exact ih _

/-- Decoding the base32 alphabet character of a digit. -/
lemma b32ValOf_b32CharOf : ∀ d < 32, b32ValOf (b32CharOf d) = some d := by
  decide

/-- Decoding an uppercase hex digit character. -/
lemma hexValOf_hexUpperChar : ∀ d < 16, hexValOf (hexUpperChar d) = some d := by
  decide

/-- `b32Chars` produces exactly `len` characters. -/
lemma b32Chars_length (len : Nat) : ∀ N, (b32Chars len N).length = len := by
  induction len with
  | zero => intro N; rfl
  | succ l ih => intro N; simp [b32Chars, ih]

/-- Decoding the base-32 digit rendering of a value below `32 ^ len`. -/
lemma b32decodeAux_b32Chars (len : Nat) : ∀ N acc, N < 32 ^ len →
    b32decodeAux acc (b32Chars len N) = some (acc * 32 ^ len + N) := by
  induction len with
  | zero =>
    intro N acc h
    interval_cases N
    simp [b32Chars, b32decodeAux]
  | succ len ih =>
    intro N acc h
    have hdiv : N / 32 < 32 ^ len := by
      rw [Nat.div_lt_iff_lt_mul (by norm_num : (0:Nat) < 32)]
      calc N < 32 ^ (len + 1) := h
      _ = 32 ^ len * 32 := by rw [pow_succ]
    have hmod : N % 32 < 32 := Nat.mod_lt _ (by norm_num)
    simp only [b32Chars]
    rw [b32decodeAux_append, ih (N / 32) acc hdiv]
    simp only [Option.some_bind]
    simp only [b32decodeAux, b32ValOf_b32CharOf (N % 32) hmod]
    congr 1
    have hexp : (acc * 32 ^ len + N / 32) * 32 + N % 32
        = acc * (32 ^ len * 32) + (N / 32 * 32 + N % 32) := by ring
    have hdm : N / 32 * 32 + N % 32 = N := by omega
    rw [hexp, hdm, ← pow_succ]

/-- `bytesToNat` of a snoc. -/
lemma bytesToNat_append (bs : List Nat) (b : Nat) :
    bytesToNat (bs ++ [b]) = bytesToNat bs * 256 + b := by
  simp [bytesToNat, List.foldl_append]

/-- `bytesToNat` of a cons. -/
lemma bytesToNat_foldl_acc (bs : List Nat) : ∀ a,
    List.foldl (fun acc x => acc * 256 + x) a bs
      = a * 256 ^ bs.length + bytesToNat bs := by
  induction bs with
  | nil => intro a; simp [bytesToNat]
  | cons x rest ih =>
    intro a
    simp only [List.foldl_cons, List.length_cons]
    rw [ih (a * 256 + x)]
    have hx : bytesToNat (x :: rest)
        = List.foldl (fun acc y => acc * 256 + y) (0 * 256 + x) rest := rfl
    rw [hx, ih (0 * 256 + x)]
    ring

/-- A byte string's value is below `256 ^ length`. -/
lemma bytesToNat_lt (bs : List Nat) (h : ∀ b ∈ bs, b < 256) :
    bytesToNat bs < 256 ^ bs.length := by
  induction bs using List.reverseRecOn with
  | nil => simp [bytesToNat]
  | append_singleton xs b ih =>
    rw [bytesToNat_append]
    have hb : b < 256 := h b (by simp)
    have hxs : bytesToNat xs < 256 ^ xs.length :=
      ih (fun x hx => h x (by simp [hx]))
    simp only [List.length_append, List.length_cons, List.length_nil]
    calc bytesToNat xs * 256 + b < (bytesToNat xs + 1) * 256 := by omega
    _ ≤ 256 ^ xs.length * 256 := by
        have h1 : bytesToNat xs + 1 ≤ 256 ^ xs.length := hxs
        exact Nat.mul_le_mul_right 256 h1
    _ = 256 ^ (xs.length + (0 + 1)) := by rw [pow_succ]

/-- Reconstructing a byte string from its value. -/
lemma natToBytes_bytesToNat (bs : List Nat) (h : ∀ b ∈ bs, b < 256) :
    natToBytes bs.length (bytesToNat bs) = bs := by
  induction bs using List.reverseRecOn with
  | nil => rfl
  | append_singleton xs b ih =>
    have hb : b < 256 := h b (by simp)
    rw [bytesToNat_append]
    have hlen : (xs ++ [b]).length = xs.length + 1 := by simp
    rw [hlen, natToBytes]
    have hdiv : (bytesToNat xs * 256 + b) / 256 = bytesToNat xs := by omega
    have hmod : (bytesToNat xs * 256 + b) % 256 = b := by omega
    rw [hdiv, hmod, ih (fun x hx => h x (by simp [hx]))]

/-- The hex character list `b16encode` builds. -/
lemma hexDecodeAux_hexBytes (bs : List Nat) : ∀ acc, (∀ b ∈ bs, b < 256) →
    hexDecodeAux acc
        ((bs.map (fun b => [hexUpperChar (b / 16), hexUpperChar (b % 16)])).flatten)
      = some (acc * 256 ^ bs.length + bytesToNat bs) := by
  induction bs with
  | nil =>
    intro acc _
    simp [hexDecodeAux, bytesToNat]
  | cons b rest ih =>
    intro acc h
    have hdiv : b / 16 < 16 := by
      have := h b (List.mem_cons_self b rest)
      omega
    have hmod : b % 16 < 16 := Nat.mod_lt _ (by norm_num)
    have h1 := hexValOf_hexUpperChar (b / 16) hdiv
    have h2 := hexValOf_hexUpperChar (b % 16) hmod
    simp only [List.map_cons, List.flatten_cons, List.cons_append, List.nil_append,
      List.append_eq, hexDecodeAux, h1, h2]
    rw [ih _ (fun x hx => h x (List.mem_cons_of_mem b hx))]
    congr 1
    have hb : (acc * 16 + b / 16) * 16 + b % 16 = acc * 256 + b := by omega
    rw [hb]
    have hcons : bytesToNat (b :: rest) = b * 256 ^ rest.length + bytesToNat rest := by
      have hx : bytesToNat (b :: rest)
          = List.foldl (fun acc y => acc * 256 + y) (0 * 256 + b) rest := rfl
      rw [hx, bytesToNat_foldl_acc]
      ring_nf
    rw [List.length_cons, hcons, pow_succ]
    ring

/-- Length of the hex character list. -/
lemma hexBytes_length (bs : List Nat) :
    ((bs.map (fun b => [hexUpperChar (b / 16), hexUpperChar (b % 16)])).flatten).length
      = 2 * bs.length := by
  induction bs with
  | nil => rfl
  | cons b rest ih => simp [ih]; omega

/-- `info_hash_to_long` of `b16encode bs` recovers the canonical
integer value of the hash. -/
lemma info_hash_to_long_b16encode (bs : List Nat) (hne : bs ≠ [])
    (h : ∀ b ∈ bs, b < 256) :
    info_hash_to_long (b16encode bs) = some (bytesToNat bs) := by
  unfold info_hash_to_long b16encode
  have hlen := hexBytes_length bs
  have hnonempty : ((bs.map (fun b => [hexUpperChar (b / 16), hexUpperChar (b % 16)])).flatten).isEmpty = false := by
    cases hc : (bs.map (fun b => [hexUpperChar (b / 16), hexUpperChar (b % 16)])).flatten
    · rw [hc] at hlen
      simp at hlen
      cases bs
      · exact absurd rfl hne
      · simp at hlen
    · rfl
  rw [if_neg (by simp [hnonempty])]
  have := hexDecodeAux_hexBytes bs 0 h
  simpa using this

/-- C5 core: `find_duplicate_torrent_from_magnet` maps both the base32
and the hex encoding of the same 20-byte info-hash to the same registry
key, so both find the same registered downloader. -/
theorem magnet_duplicate_detection (registry : List (Nat × Nat)) (bs : List Nat)
    (hlen : bs.length = 20) (hb : ∀ b ∈ bs, b < 256) :
    find_duplicate_torrent_from_magnet registry (b32encode bs)
      = some (registryGet registry (bytesToNat bs)) ∧
    find_duplicate_torrent_from_magnet registry (b16encode bs)
      = some (registryGet registry (bytesToNat bs)) ∧
    find_duplicate_torrent registry (b16encode bs)
      = some (registryGet registry (bytesToNat bs)) ∧
    (∀ orig dlid, registryGet registry (bytesToNat bs) = some orig →
      startTorrentFromMagnet registry dlid (b32encode bs)
          = some (.duplicateReported orig dlid) ∧
      startTorrentFromMagnet registry dlid (b16encode bs)
          = some (.duplicateReported orig dlid) ∧
      startTorrentFromMetainfo registry dlid (b16encode bs)
          = some (.duplicateReported orig dlid)) := by
  have hne : bs ≠ [] := by
    intro hx
    rw [hx] at hlen
    simp at hlen
  have hN : bytesToNat bs < 32 ^ 32 := by
    have h1 := bytesToNat_lt bs hb
    rw [hlen] at h1
    calc bytesToNat bs < 256 ^ 20 := h1
    _ ≤ 32 ^ 32 := by norm_num
  have hb16 : info_hash_to_long (b16encode bs) = some (bytesToNat bs) :=
    info_hash_to_long_b16encode bs hne hb
  -- the base32 branch
  have hdatalen : (b32encode bs).length = 32 := by
    unfold b32encode
    show (b32Chars 32 (bytesToNat bs)).length = 32
    exact b32Chars_length 32 (bytesToNat bs)
  have hdecode32 : b32decode32 (b32encode bs) = some bs := by
    unfold b32decode32
    rw [if_pos hdatalen]
    unfold b32encode
    show ((b32decodeAux 0 (b32Chars 32 (bytesToNat bs))).map (natToBytes 20)) = some bs
    rw [b32decodeAux_b32Chars 32 (bytesToNat bs) 0 hN]
    have hz : 0 * 32 ^ 32 + bytesToNat bs = bytesToNat bs := by ring
    rw [hz, ← hlen]
    exact congrArg (Option.map (natToBytes bs.length))
      (congrArg some rfl) |>.trans (congrArg some (natToBytes_bytesToNat bs hb))
  have hb32nonempty : ((b32encode bs).data).isEmpty = false := by
    have h32 : ((b32encode bs).data).length = 32 := hdatalen
    cases hc : (b32encode bs).data
    · rw [hc] at h32
      simp at h32
    · rfl
  have hmag32 : find_duplicate_torrent_from_magnet registry (b32encode bs)
      = some (registryGet registry (bytesToNat bs)) := by
    unfold find_duplicate_torrent_from_magnet
    rw [if_neg (by simp [hb32nonempty]), if_pos hdatalen, hdecode32]
    show (info_hash_to_long (b16encode bs)).map (registryGet registry)
      = some (registryGet registry (bytesToNat bs))
    rw [hb16]
    rfl
  have hb16len : (b16encode bs).length = 40 := by
    unfold b16encode
    show ((bs.map (fun b => [hexUpperChar (b / 16), hexUpperChar (b % 16)])).flatten).length = 40
    rw [hexBytes_length, hlen]
  have hb16nonempty : ((b16encode bs).data).isEmpty = false := by
    have h40 : ((b16encode bs).data).length = 40 := hb16len
    cases hc : (b16encode bs).data
    · rw [hc] at h40
      simp at h40
    · rfl
  have hmag16 : find_duplicate_torrent_from_magnet registry (b16encode bs)
      = some (registryGet registry (bytesToNat bs)) := by
    unfold find_duplicate_torrent_from_magnet
    rw [if_neg (by simp [hb16nonempty]), if_neg (by rw [hb16len]; omega)]
    show (info_hash_to_long (b16encode bs)).map (registryGet registry)
      = some (registryGet registry (bytesToNat bs))
    rw [hb16]
    rfl
  have hmeta : find_duplicate_torrent registry (b16encode bs)
      = some (registryGet registry (bytesToNat bs)) := by
    unfold find_duplicate_torrent
    rw [hb16]
    rfl
  refine ⟨hmag32, hmag16, hmeta, ?_⟩
  intro orig dlid horig
  refine ⟨?_, ?_, ?_⟩
  · unfold startTorrentFromMagnet
    rw [hmag32, horig]
    rfl
  · unfold startTorrentFromMagnet
    rw [hmag16, horig]
    rfl
  · unfold startTorrentFromMetainfo
    rw [hmeta, horig]
    rfl

/-- Witness for C5: the 20-byte hash 0,1,...,19 registered under dlid
7; both encodings report the duplicate against it. -/
theorem magnet_duplicate_detection_witness :
    find_duplicate_torrent_from_magnet [(bytesToNat (List.range 20), 7)]
        (b32encode (List.range 20))
      = some (registryGet [(bytesToNat (List.range 20), 7)]
          (bytesToNat (List.range 20))) ∧
    startTorrentFromMagnet [(bytesToNat (List.range 20), 7)] 9
        (b32encode (List.range 20))
      = some (.duplicateReported 7 9) ∧
    startTorrentFromMagnet [(bytesToNat (List.range 20), 7)] 9
        (b16encode (List.range 20))
      = some (.duplicateReported 7 9) ∧
    startTorrentFromMetainfo [(bytesToNat (List.range 20), 7)] 9
        (b16encode (List.range 20))
      = some (.duplicateReported 7 9) := by
  have h := magnet_duplicate_detection [(bytesToNat (List.range 20), 7)]
    (List.range 20) (by decide) (by decide)
  have horig : registryGet [(bytesToNat (List.range 20), 7)]
      (bytesToNat (List.range 20)) = some 7 := by
    simp [registryGet]
  have h4 := h.2.2.2 7 9 horig
  exact ⟨h.1, h4.1, h4.2.1, h4.2.2⟩

end Miro
